import Mathlib

/-!
Verification of the sandboxed multi-language benchmark engine
(`docker_setup/benchmark.py` and `setup_environment.py`).

The Python code is shallowly embedded: strings are `List Char`, each
effectful primitive (subprocess step, docker API call, filesystem write)
is an oracle value describing its outcome, and every function that matters
to the claims is translated from the source line by line.  Wall-clock
durations are modelled as natural numbers of microseconds, so the decimal
rendering of an execution time is exact to well below the millisecond
resolution the specification demands.
-/

set_option maxRecDepth 4000

/-- Python `str` payloads are modelled as lists of characters. -/
abbrev Str := List Char

/-- Coerce a Lean string literal to the `List Char` model. -/
def str (s : String) : Str := s.data

/-- Whitespace test used by Python's `str.strip()` model. -/
def isWS (c : Char) : Bool := c.isWhitespace

/-- Model of Python `str.strip()`: drop whitespace from both ends. -/
def pyStrip (s : Str) : Str :=
  List.reverse (List.dropWhile isWS (List.reverse (List.dropWhile isWS s)))

/-- Model of Python `str.split('\n')`. -/
def splitNl : Str → List Str
  | [] => [[]]
  | c :: rest =>
    if c = '\n' then [] :: splitNl rest
    else
      match splitNl rest with
      | [] => [[c]]
      | l :: ls => (c :: l) :: ls

/-- Model of `'\n'.join(lines)`, the inverse of `splitNl` on newline-free lines. -/
def interNl : List Str → Str
  | [] => []
  | [l] => l
  | l :: ls => l ++ '\n' :: interNl ls

theorem splitNl_ne_nil (s : Str) : splitNl s ≠ [] := by
  induction s with
  | nil => simp [splitNl]
  | cons c rest ih =>
    simp only [splitNl]
    split
    · simp
    · split
      · simp
      · simp

theorem splitNl_append_newline (x y : Str) :
    splitNl (x ++ '\n' :: y) = splitNl x ++ splitNl y := by
  induction x with
  | nil => simp [splitNl]
  | cons c rest ih =>
    by_cases hc : c = '\n'
    · subst hc
      simp [splitNl, ih]
    · simp only [List.cons_append, splitNl, if_neg hc, List.append_eq]
      rw [ih]
      rcases h : splitNl rest with _ | ⟨l, ls⟩
      · exact absurd h (splitNl_ne_nil rest)
      · simp

theorem splitNl_no_newline (d : Str) (hd : '\n' ∉ d) : splitNl d = [d] := by
  induction d with
  | nil => simp [splitNl]
  | cons c rest ih =>
    simp only [List.mem_cons, not_or] at hd
    have hc : ¬ c = '\n' := by
      intro h
      exact hd.1 h.symm
    simp [splitNl, if_neg hc, ih hd.2]

theorem interNl_cons (l : Str) (ls : List Str) (h : ls ≠ []) :
    interNl (l :: ls) = l ++ '\n' :: interNl ls := by
  cases ls with
  | nil => exact absurd rfl h
  | cons a as => rfl

theorem splitNl_interNl (L : List Str) (hL : L ≠ []) (h : ∀ l ∈ L, '\n' ∉ l) :
    splitNl (interNl L) = L := by
  induction L with
  | nil => exact absurd rfl hL
  | cons l ls ih =>
    cases ls with
    | nil =>
      simp only [interNl]
      exact splitNl_no_newline l (h l (by simp))
    | cons a as =>
      rw [interNl_cons l (a :: as) (by simp)]
      rw [splitNl_append_newline]
      rw [splitNl_no_newline l (h l (by simp))]
      rw [ih (by simp) (fun x hx => h x (List.mem_cons_of_mem _ hx))]
      rfl

/-- `strip` is the identity on a string whose two end characters are not
whitespace; the string is given in head and last-element form. -/
theorem pyStrip_noop (c c' : Char) (t u : Str)
    (hshape : c :: t = u ++ [c'])
    (h1 : isWS c = false) (h2 : isWS c' = false) :
    pyStrip (c :: t) = c :: t := by
  unfold pyStrip
  rw [List.dropWhile_cons_of_neg (by simp [h1])]
  rw [hshape]
  rw [List.reverse_append]
  simp only [List.reverse_cons, List.reverse_nil, List.nil_append, List.singleton_append]
  rw [List.dropWhile_cons_of_neg (by simp [h2])]
  simp

/-! ## Decimal digits

`json.dumps` renders the measured `execution_time`; durations are modelled
as natural numbers of microseconds and rendered as `<sec>.<6 digits>`, which
is exact decimal serialization at microsecond resolution. -/

/-- The decimal digit characters. -/
def digitChar : Nat → Char
  | 0 => '0' | 1 => '1' | 2 => '2' | 3 => '3' | 4 => '4'
  | 5 => '5' | 6 => '6' | 7 => '7' | 8 => '8' | 9 => '9'
  | _ => '*'

/-- Numeric value of a digit character. -/
def digitVal (c : Char) : Nat := c.toNat - 48

/-- Value of a decimal digit string, most significant digit first. -/
def digitsVal (s : Str) : Nat := s.foldl (fun a c => a * 10 + digitVal c) 0

/-- Fuel-based decimal rendering of a natural number (any fuel above the
number itself is enough). -/
def renderDigits : Nat → Nat → Str
  | 0, _ => []
  | fuel + 1, n =>
    if n < 10 then [digitChar n]
    else renderDigits fuel (n / 10) ++ [digitChar (n % 10)]

/-- Decimal rendering of a natural number. -/
def renderNat (n : Nat) : Str := renderDigits (n + 1) n

/-- `padDigits k m` is the last `k` decimal digits of `m`, zero padded. -/
def padDigits : Nat → Nat → Str
  | 0, _ => []
  | k + 1, m => padDigits k (m / 10) ++ [digitChar (m % 10)]

theorem digitChar_isDigit (k : Nat) (h : k < 10) : (digitChar k).isDigit = true := by
  interval_cases k <;> decide

theorem digitVal_digitChar (k : Nat) (h : k < 10) : digitVal (digitChar k) = k := by
  interval_cases k <;> decide

theorem isDigit_ne_newline (c : Char) (h : c.isDigit = true) : c ≠ '\n' := by
  intro hc
  subst hc
  exact absurd h (by decide)

theorem digitsVal_from (l : Str) (a : Nat) :
    l.foldl (fun a c => a * 10 + digitVal c) a = a * 10 ^ l.length + digitsVal l := by
  induction l generalizing a with
  | nil => simp [digitsVal]
  | cons c t ih =>
    simp only [List.foldl_cons, List.length_cons, digitsVal]
    rw [ih (a * 10 + digitVal c), ih (0 * 10 + digitVal c)]
    ring

theorem digitsVal_append_single (l : Str) (c : Char) :
    digitsVal (l ++ [c]) = digitsVal l * 10 + digitVal c := by
  simp only [digitsVal, List.foldl_append, List.foldl_cons, List.foldl_nil]

theorem renderDigits_spec (fuel n : Nat) (h : n < fuel) :
    (∀ c ∈ renderDigits fuel n, c.isDigit = true) ∧
    renderDigits fuel n ≠ [] ∧
    digitsVal (renderDigits fuel n) = n := by
  induction fuel generalizing n with
  | zero => omega
  | succ fuel ih =>
    by_cases hn : n < 10
    · refine ⟨?_, ?_, ?_⟩ <;> simp only [renderDigits, if_pos hn]
      · intro c hc
        simp only [List.mem_singleton] at hc
        subst hc
        exact digitChar_isDigit n hn
      · simp
      · simp [digitsVal, digitVal_digitChar n hn]
    · have hrec : n / 10 < fuel := by omega
      obtain ⟨ha, hb, hc⟩ := ih (n / 10) hrec
      refine ⟨?_, ?_, ?_⟩ <;> simp only [renderDigits, if_neg hn]
      · intro c hcm
        rcases List.mem_append.mp hcm with h1 | h2
        · exact ha c h1
        · simp only [List.mem_singleton] at h2
          subst h2
          exact digitChar_isDigit _ (Nat.mod_lt n (by omega))
      · simp
      · rw [digitsVal_append_single, hc, digitVal_digitChar _ (Nat.mod_lt n (by omega))]
        omega

theorem renderNat_spec (n : Nat) :
    (∀ c ∈ renderNat n, c.isDigit = true) ∧
    renderNat n ≠ [] ∧
    digitsVal (renderNat n) = n :=
  renderDigits_spec (n + 1) n (by omega)

theorem padDigits_spec (k : Nat) : ∀ m : Nat,
    (∀ c ∈ padDigits k m, c.isDigit = true) ∧
    (padDigits k m).length = k ∧
    digitsVal (padDigits k m) = m % 10 ^ k := by
  induction k with
  | zero => intro m; simp [padDigits, digitsVal, Nat.mod_one]
  | succ k ih =>
    intro m
    obtain ⟨ha, hb, hc⟩ := ih (m / 10)
    refine ⟨?_, ?_, ?_⟩ <;> simp only [padDigits]
    · intro c hcm
      rcases List.mem_append.mp hcm with h1 | h2
      · exact ha c h1
      · simp only [List.mem_singleton] at h2
        subst h2
        exact digitChar_isDigit _ (Nat.mod_lt m (by omega))
    · simp [hb]
    · rw [digitsVal_append_single, hc, digitVal_digitChar _ (Nat.mod_lt m (by omega))]
      have h10 : (10 : Nat) ^ (k + 1) = 10 * 10 ^ k := by ring
      rw [h10, Nat.mod_mul]
      ring

/-- Greedy scan of leading decimal digits. -/
def parseDigits : Str → Str × Str
  | [] => ([], [])
  | c :: rest =>
    if c.isDigit then
      match parseDigits rest with
      | (ds, r) => (c :: ds, r)
    else ([], c :: rest)

/-- The first character (if any) is not a decimal digit. -/
def FirstNotDigit : Str → Prop
  | [] => True
  | c :: _ => c.isDigit = false

theorem parseDigits_exact (ds : Str) (rest : Str)
    (hds : ∀ c ∈ ds, c.isDigit = true) (hrest : FirstNotDigit rest) :
    parseDigits (ds ++ rest) = (ds, rest) := by
  induction ds with
  | nil =>
    cases rest with
    | nil => rfl
    | cons c t =>
      simp only [FirstNotDigit] at hrest
      simp [parseDigits, hrest]
  | cons c t ih =>
    have hc : c.isDigit = true := hds c (by simp)
    simp only [List.cons_append, parseDigits, hc, if_pos, List.append_eq]
    rw [ih (fun x hx => hds x (List.mem_cons_of_mem _ hx))]

/-- Parse a decimal number of the exact shape the runner serializes:
integer digits, a point, six fractional digits.  Returns microseconds. -/
def parseNumber (s : Str) : Option (Nat × Str) :=
  match parseDigits s with
  | (ds, r₁) =>
    if ds = [] then none
    else
      match r₁ with
      | '.' :: r₂ =>
        if (r₂.take 6).length = 6 ∧ ∀ c ∈ r₂.take 6, c.isDigit = true then
          some (digitsVal ds * 1000000 + digitsVal (r₂.take 6), r₂.drop 6)
        else none
      | _ => none

/-- Decimal rendering of a duration of `t` microseconds, as seconds. -/
def renderTime (t : Nat) : Str :=
  renderNat (t / 1000000) ++ '.' :: padDigits 6 (t % 1000000)

theorem parseNumber_renderTime (t : Nat) (rest : Str) :
    parseNumber (renderTime t ++ rest) = some (t, rest) := by
  obtain ⟨ha, hb, hc⟩ := renderNat_spec (t / 1000000)
  obtain ⟨pa, pb, pc⟩ := padDigits_spec 6 (t % 1000000)
  have hsplit : renderTime t ++ rest =
      renderNat (t / 1000000) ++ ('.' :: (padDigits 6 (t % 1000000) ++ rest)) := by
    simp [renderTime]
  rw [hsplit]
  unfold parseNumber
  rw [parseDigits_exact _ _ ha (by simp [FirstNotDigit])]
  simp only [if_neg hb]
  have htake : (padDigits 6 (t % 1000000) ++ rest).take 6 = padDigits 6 (t % 1000000) := by
    rw [← pb]
    exact List.take_left _ _
  have hdrop : (padDigits 6 (t % 1000000) ++ rest).drop 6 = rest := by
    rw [← pb]
    exact List.drop_left _ _
  rw [htake, hdrop]
  rw [if_pos ⟨pb, pa⟩]
  simp only [Option.some.injEq, Prod.mk.injEq, and_true]
  rw [hc, pc]
  have h6 : (10 : Nat) ^ 6 = 1000000 := by norm_num
  rw [h6]
  omega

/-! ## JSON string escaping

`json.dumps` escapes `"` and `\` inside string payloads; payload strings are
restricted to printable ASCII (`json.dumps` would escape anything else). -/

/-- Escape one character as `json.dumps` does for printable ASCII input. -/
def escChar (c : Char) : Str :=
  if c = '\"' then ['\\', '\"']
  else if c = '\\' then ['\\', '\\']
  else [c]

/-- Escape a whole string payload. -/
def escape : Str → Str
  | [] => []
  | c :: rest => escChar c ++ escape rest

/-- A payload string the model serializes verbatim: printable ASCII only. -/
def StrOk (s : Str) : Prop := ∀ c ∈ s, 32 ≤ c.toNat ∧ c.toNat ≤ 126

theorem strOk_ne_newline {s : Str} (h : StrOk s) {c : Char} (hc : c ∈ s) : c ≠ '\n' := by
  intro he
  subst he
  exact absurd (h _ hc) (by decide)

theorem mem_escape {s : Str} {c : Char} (h : c ∈ escape s) :
    c ∈ s ∨ c = '\\' ∨ c = '\"' := by
  induction s with
  | nil => simp [escape] at h
  | cons a t ih =>
    simp only [escape, List.mem_append] at h
    rcases h with h1 | h2
    · unfold escChar at h1
      by_cases ha : a = '\"'
      · rw [if_pos ha] at h1
        simp only [List.mem_cons, List.not_mem_nil, or_false] at h1
        rcases h1 with hx | hx
        · exact Or.inr (Or.inl hx)
        · exact Or.inr (Or.inr hx)
      · rw [if_neg ha] at h1
        by_cases hb : a = '\\'
        · rw [if_pos hb] at h1
          simp only [List.mem_cons, List.not_mem_nil, or_false] at h1
          rcases h1 with hx | hx
          · exact Or.inr (Or.inl hx)
          · exact Or.inr (Or.inl hx)
        · rw [if_neg hb] at h1
          simp only [List.mem_singleton] at h1
          subst h1
          exact Or.inl (by simp)
    · rcases ih h2 with hx | hx
      · exact Or.inl (List.mem_cons_of_mem _ hx)
      · exact Or.inr hx

theorem escape_no_newline {s : Str} (h : StrOk s) : '\n' ∉ escape s := by
  intro hmem
  rcases mem_escape hmem with h1 | h2 | h3
  · exact strOk_ne_newline h h1 rfl
  · exact absurd h2 (by decide)
  · exact absurd h3 (by decide)

/-- Parse the body of a JSON string up to and including the closing quote,
undoing the two escapes the serializer produces; the `Bool` flag records a
pending backslash.  Raw newlines are rejected, as `json.loads` rejects raw
control characters inside strings. -/
def parseStrBodyA : Bool → Str → Option (Str × Str)
  | _, [] => none
  | true, c :: rest =>
    if c = '\"' ∨ c = '\\' then
      match parseStrBodyA false rest with
      | some (x, r) => some (c :: x, r)
      | none => none
    else none
  | false, c :: rest =>
    if c = '\"' then some ([], rest)
    else if c = '\\' then parseStrBodyA true rest
    else if c = '\n' then none
    else
      match parseStrBodyA false rest with
      | some (x, r) => some (c :: x, r)
      | none => none

/-- Parse a JSON string body up to and including the closing quote. -/
def parseStrBody (s : Str) : Option (Str × Str) := parseStrBodyA false s

theorem parseStrBody_quote (s : Str) : parseStrBody ('\"' :: s) = some ([], s) := rfl

theorem parseStrBody_esc (e : Char) (he : e = '\"' ∨ e = '\\') (S x r : Str)
    (hS : parseStrBody S = some (x, r)) :
    parseStrBody ('\\' :: e :: S) = some (e :: x, r) := by
  unfold parseStrBody at hS ⊢
  rcases he with he | he <;> subst he <;> simp [parseStrBodyA, hS]

theorem parseStrBody_plain (c : Char) (h1 : ¬ c = '\"') (h2 : ¬ c = '\\')
    (h3 : ¬ c = '\n') (S x r : Str) (hS : parseStrBody S = some (x, r)) :
    parseStrBody (c :: S) = some (c :: x, r) := by
  unfold parseStrBody at hS ⊢
  simp only [parseStrBodyA, if_neg h1, if_neg h2, if_neg h3, hS]

theorem parseStrBody_escape (s : Str) (rest : Str) (hs : StrOk s) :
    parseStrBody (escape s ++ '\"' :: rest) = some (s, rest) := by
  induction s with
  | nil => rfl
  | cons c t ih =>
    have hok : StrOk t := fun x hx => hs x (List.mem_cons_of_mem _ hx)
    by_cases h1 : c = '\"'
    · subst h1
      have hsh : escape ('\"' :: t) ++ '\"' :: rest =
          '\\' :: '\"' :: (escape t ++ '\"' :: rest) := by
        simp [escape, escChar]
      rw [hsh]
      exact parseStrBody_esc _ (Or.inl rfl) _ _ _ (ih hok)
    · by_cases h2 : c = '\\'
      · subst h2
        have hsh : escape ('\\' :: t) ++ '\"' :: rest =
            '\\' :: '\\' :: (escape t ++ '\"' :: rest) := by
          simp [escape, escChar]
        rw [hsh]
        exact parseStrBody_esc _ (Or.inr rfl) _ _ _ (ih hok)
      · have h3 : ¬ c = '\n' := strOk_ne_newline hs (by simp)
        have hsh : escape (c :: t) ++ '\"' :: rest =
            c :: (escape t ++ '\"' :: rest) := by
          simp [escape, escChar, if_neg h1, if_neg h2]
        rw [hsh]
        exact parseStrBody_plain c h1 h2 h3 _ _ _ (ih hok)

/-! ## Literal matching -/

/-- Consume an exact literal from the front of the input. -/
def expectLit : Str → Str → Option Str
  | [], s => some s
  | _ :: _, [] => none
  | c :: lit, d :: s => if c = d then expectLit lit s else none

theorem expectLit_append (lit rest : Str) : expectLit lit (lit ++ rest) = some rest := by
  induction lit with
  | nil => rfl
  | cons c t ih => simp [expectLit, ih]

theorem expectLit_mismatch (p : Str) (c c' : Char) (t u : Str) (h : c ≠ c') :
    expectLit (p ++ c :: t) (p ++ c' :: u) = none := by
  induction p with
  | nil => simp [expectLit, h]
  | cons a q ih => simp [expectLit, ih]

/-! ## The per-language result record

`benchmark.py` builds one dict per language.  A field of the JSON object is
modelled with one more `Option` layer than the value: for `execution_time`,
`none` means the key is absent, `some none` means the key holds JSON
`null`, and `some (some t)` means the key holds the number `t` (in
microseconds). -/

/-- One language slot's result dict, as emitted by the in-sandbox runner. -/
structure LangResult where
  success : Bool
  execution_time : Option (Option Nat)
  output : Option Str
  error : Option Str
deriving DecidableEq

/-- The consolidated runner record: one result per fixed language slot, in
the insertion order of `main` in `benchmark.py`. -/
structure Results where
  python : LangResult
  cpp : LangResult
  rust : LangResult
  java : LangResult
deriving DecidableEq

/-- `{"success": True, "execution_time": t, "output": stdout.strip()}`. -/
def successResult (t : Nat) (stdout : Str) : LangResult :=
  { success := true, execution_time := some (some t), output := some (pyStrip stdout),
    error := none }

/-- `{"success": False, "error": "Compilation error: " + stderr, "execution_time": None}`. -/
def compileErrorResult (stderr : Str) : LangResult :=
  { success := false, execution_time := some none, output := none,
    error := some (str "Compilation error: " ++ stderr) }

/-- `{"success": False, "error": "Runtime error: " + stderr, "execution_time": None}`. -/
def runtimeErrorResult (stderr : Str) : LangResult :=
  { success := false, execution_time := some none, output := none,
    error := some (str "Runtime error: " ++ stderr) }

/-- `{"success": False, "error": "Execution timeout", "execution_time": None}`. -/
def timeoutResult : LangResult :=
  { success := false, execution_time := some none, output := none,
    error := some (str "Execution timeout") }

/-- `{"success": False, "error": str(e), "execution_time": None}`. -/
def exnResult (msg : Str) : LangResult :=
  { success := false, execution_time := some none, output := none, error := some msg }

/-- `{"success": False, "error": "File not found", "execution_time": None}`. -/
def fileNotFoundResult : LangResult :=
  { success := false, execution_time := some none, output := none,
    error := some (str "File not found") }

/-! ## The result-channel wire format

`main` ends with `print(json.dumps(results))`; `dumpsLang`/`dumpsResults`
model `json.dumps` on exactly the dict shapes the runner builds, and
`loadsLang`/`loadsResults` model `json.loads` on that grammar. -/

/-- Serialize one language dict the way `json.dumps` renders the runner's
two dict shapes (key order is Python dict insertion order). -/
def dumpsLang (r : LangResult) : Str :=
  match r.success, r.execution_time, r.output, r.error with
  | true, some (some t), some out, _ =>
    str "\x7b\"success\": true, \"execution_time\": " ++ renderTime t ++
      str ", \"output\": \"" ++ escape out ++ str "\"\x7d"
  | false, _, _, some e =>
    str "\x7b\"success\": false, \"error\": \"" ++ escape e ++
      str "\", \"execution_time\": null\x7d"
  | _, _, _, _ => []

/-- Serialize the whole runner record (slot order is `main`'s insertion
order: python, cpp, rust, java). -/
def dumpsResults (r : Results) : Str :=
  str "\x7b\"python\": " ++ dumpsLang r.python ++
    str ", \"cpp\": " ++ dumpsLang r.cpp ++
    str ", \"rust\": " ++ dumpsLang r.rust ++
    str ", \"java\": " ++ dumpsLang r.java ++ str "\x7d"

/-- Parse one language dict off the front of the input, returning the
unconsumed tail. -/
def loadsLang (s : Str) : Option (LangResult × Str) :=
  match expectLit (str "\x7b\"success\": true, \"execution_time\": ") s with
  | some s₁ =>
    match parseNumber s₁ with
    | some (t, s₂) =>
      match expectLit (str ", \"output\": \"") s₂ with
      | some s₃ =>
        match parseStrBody s₃ with
        | some (out, s₄) =>
          match expectLit (str "\x7d") s₄ with
          | some s₅ =>
            some ({ success := true, execution_time := some (some t),
                    output := some out, error := none }, s₅)
          | none => none
        | none => none
      | none => none
    | none => none
  | none =>
    match expectLit (str "\x7b\"success\": false, \"error\": \"") s with
    | some s₁ =>
      match parseStrBody s₁ with
      | some (e, s₂) =>
        match expectLit (str "\x2c \"execution_time\": null\x7d") s₂ with
        | some s₃ =>
          some ({ success := false, execution_time := some none,
                  output := none, error := some e }, s₃)
        | none => none
      | none => none
    | none => none

/-- Parse a full runner record; the whole input must be consumed, as
`json.loads` requires. -/
def loadsResults (s : Str) : Option Results :=
  match expectLit (str "\x7b\"python\": ") s with
  | some s₁ =>
    match loadsLang s₁ with
    | some (py, s₂) =>
      match expectLit (str ", \"cpp\": ") s₂ with
      | some s₃ =>
        match loadsLang s₃ with
        | some (rcpp, s₄) =>
          match expectLit (str ", \"rust\": ") s₄ with
          | some s₅ =>
            match loadsLang s₅ with
            | some (rrust, s₆) =>
              match expectLit (str ", \"java\": ") s₆ with
              | some s₇ =>
                match loadsLang s₇ with
                | some (rjava, s₈) =>
                  match expectLit (str "\x7d") s₈ with
                  | some [] => some ⟨py, rcpp, rrust, rjava⟩
                  | _ => none
                | none => none
              | none => none
            | none => none
          | none => none
        | none => none
      | none => none
    | none => none
  | none => none

/-! ## Codec round trip -/

/-- Well-formedness of one language result: exactly the two dict shapes the
runner emits, with printable-ASCII string payloads. -/
def LangOk (r : LangResult) : Prop :=
  (r.success = true ∧ (∃ t, r.execution_time = some (some t)) ∧
    (∃ out, r.output = some out ∧ StrOk out) ∧ r.error = none) ∨
  (r.success = false ∧ r.execution_time = some none ∧ r.output = none ∧
    ∃ e, r.error = some e ∧ StrOk e)

/-- Well-formedness of a whole runner record. -/
def ResultsOk (r : Results) : Prop :=
  LangOk r.python ∧ LangOk r.cpp ∧ LangOk r.rust ∧ LangOk r.java

theorem loadsLang_dumpsLang_ok (t : Nat) (out : Str) (hout : StrOk out) (rest : Str) :
    loadsLang (dumpsLang ⟨true, some (some t), some out, none⟩ ++ rest) =
      some (⟨true, some (some t), some out, none⟩, rest) := by
  have hstr := fun R => parseStrBody_escape out R hout
  have hform : dumpsLang ⟨true, some (some t), some out, none⟩ ++ rest =
      str "\x7b\"success\": true, \"execution_time\": " ++ (renderTime t ++
        (str ", \"output\": \"" ++ (escape out ++ '\"' :: (str "\x7d" ++ rest)))) := by
    show (str "\x7b\"success\": true, \"execution_time\": " ++ renderTime t ++
        str ", \"output\": \"" ++ escape out ++ str "\"\x7d") ++ rest = _
    rw [show str "\"\x7d" = '\"' :: str "\x7d" from rfl]
    simp [List.append_assoc]
  rw [hform]
  simp only [loadsLang, expectLit_append, parseNumber_renderTime, hstr]

theorem loadsLang_dumpsLang_err (e : Str) (he : StrOk e) (rest : Str) :
    loadsLang (dumpsLang ⟨false, some none, none, some e⟩ ++ rest) =
      some (⟨false, some none, none, some e⟩, rest) := by
  have hstr := fun R => parseStrBody_escape e R he
  have hform : dumpsLang ⟨false, some none, none, some e⟩ ++ rest =
      str "\x7b\"success\": false, \"error\": \"" ++
        (escape e ++ '\"' :: (str ", \"execution_time\": null\x7d" ++ rest)) := by
    show (str "\x7b\"success\": false, \"error\": \"" ++ escape e ++
        str "\", \"execution_time\": null\x7d") ++ rest = _
    rw [show str "\", \"execution_time\": null\x7d" =
        '\"' :: str ", \"execution_time\": null\x7d" from rfl]
    simp [List.append_assoc]
  have hne : expectLit (str "\x7b\"success\": true, \"execution_time\": ")
      (str "\x7b\"success\": false, \"error\": \"" ++
        (escape e ++ '\"' :: (str ", \"execution_time\": null\x7d" ++ rest))) = none := by
    rw [show str "\x7b\"success\": true, \"execution_time\": " =
        str "\x7b\"success\": " ++ 't' :: str "rue, \"execution_time\": " from rfl]
    rw [show str "\x7b\"success\": false, \"error\": \"" =
        str "\x7b\"success\": " ++ 'f' :: str "alse, \"error\": \"" from rfl]
    rw [List.append_assoc, List.cons_append]
    exact expectLit_mismatch _ _ _ _ _ (by decide)
  rw [hform]
  simp only [loadsLang, hne, expectLit_append, hstr]

theorem loadsLang_dumpsLang (r : LangResult) (hr : LangOk r) (rest : Str) :
    loadsLang (dumpsLang r ++ rest) = some (r, rest) := by
  rcases hr with ⟨hs, ⟨t, het⟩, ⟨out, hout, hok⟩, herr⟩ | ⟨hs, het, hou, ⟨e, herr, hok⟩⟩
  · rcases r with ⟨su, et, ou, er⟩
    simp only at hs het hout herr
    subst hs het hout herr
    exact loadsLang_dumpsLang_ok t out hok rest
  · rcases r with ⟨su, et, ou, er⟩
    simp only at hs het hou herr
    subst hs het hou herr
    exact loadsLang_dumpsLang_err e hok rest

theorem loadsResults_dumpsResults (r : Results) (hr : ResultsOk r) :
    loadsResults (dumpsResults r) = some r := by
  obtain ⟨h1, h2, h3, h4⟩ := hr
  have hform : dumpsResults r =
      str "\x7b\"python\": " ++ (dumpsLang r.python ++ (str ", \"cpp\": " ++
        (dumpsLang r.cpp ++ (str ", \"rust\": " ++ (dumpsLang r.rust ++
          (str ", \"java\": " ++ (dumpsLang r.java ++ (str "\x7d" ++ [])))))))) := by
    simp [dumpsResults, List.append_assoc]
  rw [hform]
  simp only [loadsResults, expectLit_append,
    loadsLang_dumpsLang r.python h1, loadsLang_dumpsLang r.cpp h2,
    loadsLang_dumpsLang r.rust h3, loadsLang_dumpsLang r.java h4]

/-! ## Shape facts about the serialized record -/

theorem renderTime_no_newline (t : Nat) : '\n' ∉ renderTime t := by
  obtain ⟨ha, _, _⟩ := renderNat_spec (t / 1000000)
  obtain ⟨pa, _, _⟩ := padDigits_spec 6 (t % 1000000)
  intro hmem
  simp only [renderTime, List.mem_append, List.mem_cons] at hmem
  rcases hmem with h | h | h
  · exact isDigit_ne_newline _ (ha _ h) rfl
  · exact absurd h (by decide)
  · exact isDigit_ne_newline _ (pa _ h) rfl

theorem dumpsLang_no_newline (r : LangResult) (hr : LangOk r) : '\n' ∉ dumpsLang r := by
  rcases hr with ⟨hs, ⟨t, het⟩, ⟨out, hout, hok⟩, herr⟩ | ⟨hs, het, hou, ⟨e, herr, hok⟩⟩
  · rcases r with ⟨su, et, ou, er⟩
    simp only at hs het hout herr
    subst hs het hout herr
    intro hmem
    have : dumpsLang ⟨true, some (some t), some out, none⟩ =
        str "\x7b\"success\": true, \"execution_time\": " ++ renderTime t ++
          str ", \"output\": \"" ++ escape out ++ str "\"\x7d" := rfl
    rw [this] at hmem
    simp only [List.mem_append] at hmem
    rcases hmem with ((((h | h) | h) | h) | h)
    · exact absurd h (by decide)
    · exact renderTime_no_newline t h
    · exact absurd h (by decide)
    · exact escape_no_newline hok h
    · exact absurd h (by decide)
  · rcases r with ⟨su, et, ou, er⟩
    simp only at hs het hou herr
    subst hs het hou herr
    intro hmem
    have : dumpsLang ⟨false, some none, none, some e⟩ =
        str "\x7b\"success\": false, \"error\": \"" ++ escape e ++
          str "\", \"execution_time\": null\x7d" := rfl
    rw [this] at hmem
    simp only [List.mem_append] at hmem
    rcases hmem with ((h | h) | h)
    · exact absurd h (by decide)
    · exact escape_no_newline hok h
    · exact absurd h (by decide)

theorem dumpsResults_no_newline (r : Results) (hr : ResultsOk r) :
    '\n' ∉ dumpsResults r := by
  obtain ⟨h1, h2, h3, h4⟩ := hr
  intro hmem
  simp only [dumpsResults, List.mem_append] at hmem
  rcases hmem with ((((((((h | h) | h) | h) | h) | h) | h) | h) | h)
  · exact absurd h (by decide)
  · exact dumpsLang_no_newline _ h1 h
  · exact absurd h (by decide)
  · exact dumpsLang_no_newline _ h2 h
  · exact absurd h (by decide)
  · exact dumpsLang_no_newline _ h3 h
  · exact absurd h (by decide)
  · exact dumpsLang_no_newline _ h4 h
  · exact absurd h (by decide)

theorem dumpsResults_head (r : Results) :
    dumpsResults r = '{' :: (str "\"python\": " ++ (dumpsLang r.python ++
      (str ", \"cpp\": " ++ (dumpsLang r.cpp ++ (str ", \"rust\": " ++
        (dumpsLang r.rust ++ (str ", \"java\": " ++
          (dumpsLang r.java ++ str "\x7d")))))))) := by
  unfold dumpsResults
  rw [show str "\x7b\"python\": " = '{' :: str "\"python\": " from rfl]
  simp [List.append_assoc]

theorem dumpsResults_snoc (r : Results) :
    dumpsResults r = (str "\x7b\"python\": " ++ dumpsLang r.python ++
      str ", \"cpp\": " ++ dumpsLang r.cpp ++ str ", \"rust\": " ++
      dumpsLang r.rust ++ str ", \"java\": " ++ dumpsLang r.java) ++ ['}'] := rfl

theorem pyStrip_dumpsResults (r : Results) :
    pyStrip (dumpsResults r) = dumpsResults r := by
  have hh := dumpsResults_head r
  rw [hh]
  exact pyStrip_noop '{' '}'
    (str "\"python\": " ++ (dumpsLang r.python ++ (str ", \"cpp\": " ++
      (dumpsLang r.cpp ++ (str ", \"rust\": " ++ (dumpsLang r.rust ++
        (str ", \"java\": " ++ (dumpsLang r.java ++ str "\x7d"))))))))
    (str "\x7b\"python\": " ++ dumpsLang r.python ++ str ", \"cpp\": " ++
      dumpsLang r.cpp ++ str ", \"rust\": " ++ dumpsLang r.rust ++
      str ", \"java\": " ++ dumpsLang r.java)
    (by rw [← hh]; exact dumpsResults_snoc r) (by decide) (by decide)

/-! ## The result-channel parser

`setup_environment.py` lines 200-234: strip the captured output, split on
newlines, scan lines from the end for one that (stripped) starts with `{`
and parses; otherwise join the block from the first line containing `{`
through the last line containing `}` and parse that. -/

/-- `line.startswith(c)`. -/
def startsWith (c : Char) : Str → Bool
  | [] => false
  | d :: _ => d = c

/-- Strategy 1: iterate the lines reversed; the first stripped line that
starts with `{` and parses as JSON wins; parse failures continue the scan. -/
def strategy1 : List Str → Option Results
  | [] => none
  | l :: rest =>
    if startsWith '{' (pyStrip l) then
      match loadsResults (pyStrip l) with
      | some r => some r
      | none => strategy1 rest
    else strategy1 rest

/-- Index of the first line containing `c` (the `start_idx` loop). -/
def firstIdxWith (c : Char) : List Str → Option Nat
  | [] => none
  | l :: rest =>
    if c ∈ l then some 0
    else (firstIdxWith c rest).map (· + 1)

/-- Index of the last line containing `c` (the `end_idx` loop keeps
overwriting). -/
def lastIdxWith (c : Char) : List Str → Option Nat
  | [] => none
  | l :: rest =>
    match lastIdxWith c rest with
    | some j => some (j + 1)
    | none => if c ∈ l then some 0 else none

/-- Strategy 2: join `lines[start_idx:end_idx+1]` with newlines and parse
the block. -/
def strategy2 (lines : List Str) : Option Results :=
  match firstIdxWith '{' lines, lastIdxWith '}' lines with
  | some i, some j => loadsResults (interNl ((lines.drop i).take (j + 1 - i)))
  | _, _ => none

/-- The full result-channel parser: strip and split the captured output,
try strategy 1, fall back to strategy 2, `none` when both fail. -/
def parseBenchmarkOutput (output : Str) : Option Results :=
  match strategy1 (splitNl (pyStrip output)).reverse with
  | some r => some r
  | none => strategy2 (splitNl (pyStrip output))

/-- An "unrelated diagnostic line": non-empty, no newline and no braces,
and no whitespace at either end. -/
def diagLine (l : Str) : Bool :=
  (match l with | [] => false | c :: _ => !isWS c) &&
  (match l.getLast? with | none => false | some c => !isWS c) &&
  l.all (fun c => !(c = '\n' || c = '{' || c = '}'))

theorem diagLine_ne_nil {l : Str} (h : diagLine l = true) : l ≠ [] := by
  intro he
  subst he
  simp [diagLine] at h

theorem diagLine_chars {l : Str} (h : diagLine l = true) :
    '\n' ∉ l ∧ '{' ∉ l ∧ '}' ∉ l := by
  simp only [diagLine, Bool.and_eq_true, List.all_eq_true] at h
  obtain ⟨⟨-, -⟩, hall⟩ := h
  refine ⟨?_, ?_, ?_⟩ <;> intro hmem <;> have hh := hall _ hmem <;> simp at hh

theorem diagLine_head {c : Char} {t : Str} (h : diagLine (c :: t) = true) :
    isWS c = false := by
  simp only [diagLine, Bool.and_eq_true] at h
  have h1 := h.1.1
  simp only [Bool.not_eq_true'] at h1
  exact h1

theorem diagLine_last {l : Str} (h : diagLine l = true) (u : Str) (c : Char)
    (hshape : l = u ++ [c]) : isWS c = false := by
  subst hshape
  simp only [diagLine, Bool.and_eq_true] at h
  have h2 := h.1.2
  rw [List.getLast?_concat] at h2
  simp only [Bool.not_eq_true'] at h2
  exact h2

theorem interNl_first (l : Str) (ls : List Str) : ∃ t, interNl (l :: ls) = l ++ t := by
  cases ls with
  | nil => exact ⟨[], by simp [interNl]⟩
  | cons a as => exact ⟨'\n' :: interNl (a :: as), rfl⟩

theorem interNl_last (L : List Str) (d : Str) : ∃ u, interNl (L ++ [d]) = u ++ d := by
  induction L with
  | nil => exact ⟨[], by simp [interNl]⟩
  | cons l L ih =>
    obtain ⟨u, hu⟩ := ih
    refine ⟨l ++ '\n' :: u, ?_⟩
    rw [List.cons_append, interNl_cons l (L ++ [d]) (by simp), hu]
    simp

theorem firstIdxWith_append (c : Char) (pre : List Str) (d : Str) (rest : List Str)
    (hpre : ∀ l ∈ pre, c ∉ l) (hd : c ∈ d) :
    firstIdxWith c (pre ++ d :: rest) = some pre.length := by
  induction pre with
  | nil => simp [firstIdxWith, hd]
  | cons l pre ih =>
    have hl : c ∉ l := hpre l (by simp)
    simp only [List.cons_append, firstIdxWith, if_neg hl, List.append_eq]
    rw [ih (fun x hx => hpre x (List.mem_cons_of_mem _ hx))]
    simp

theorem lastIdxWith_none (c : Char) (L : List Str) (h : ∀ l ∈ L, c ∉ l) :
    lastIdxWith c L = none := by
  induction L with
  | nil => rfl
  | cons l L ih =>
    simp only [lastIdxWith]
    rw [ih (fun x hx => h x (List.mem_cons_of_mem _ hx))]
    simp [h l (by simp)]

theorem lastIdxWith_append (c : Char) (pre : List Str) (d : Str) (post : List Str)
    (hpre : ∀ l ∈ pre, c ∉ l) (hpost : ∀ l ∈ post, c ∉ l) (hd : c ∈ d) :
    lastIdxWith c (pre ++ d :: post) = some pre.length := by
  induction pre with
  | nil =>
    simp only [List.nil_append, lastIdxWith]
    rw [lastIdxWith_none c post hpost]
    simp [hd]
  | cons l pre ih =>
    simp only [List.cons_append, lastIdxWith, List.append_eq]
    rw [ih (fun x hx => hpre x (List.mem_cons_of_mem _ hx))]
    simp

theorem pyStrip_interNl_diag_snoc (pre : List Str) (d : Str)
    (hpre : ∀ l ∈ pre, diagLine l = true)
    (t x : Str) (hd1 : d = '{' :: t) (hd2 : d = x ++ ['}']) :
    pyStrip (interNl (pre ++ [d])) = interNl (pre ++ [d]) := by
  obtain ⟨u, hu⟩ := interNl_last pre d
  have hlast : interNl (pre ++ [d]) = (u ++ x) ++ ['}'] := by
    rw [hu, hd2, List.append_assoc]
  cases pre with
  | nil =>
    have h0 : interNl ([] ++ [d]) = d := by simp [interNl]
    rw [h0, hd1]
    apply pyStrip_noop '{' '}' t (u ++ x) ?_ (by decide) (by decide)
    rw [← hd1, ← h0]
    exact hlast
  | cons p₀ pre' =>
    obtain ⟨tt, htt⟩ := interNl_first p₀ (pre' ++ [d])
    have hp₀ := hpre p₀ (by simp)
    cases p₀ with
    | nil => exact absurd rfl (diagLine_ne_nil hp₀)
    | cons c t₀ =>
      have hws := diagLine_head hp₀
      have hform : interNl ((c :: t₀) :: pre' ++ [d]) = c :: (t₀ ++ tt) := by
        rw [List.cons_append, htt, List.cons_append]
      rw [hform]
      apply pyStrip_noop c '}' (t₀ ++ tt) (u ++ x) ?_ hws (by decide)
      rw [← hform]
      exact hlast

theorem parseOutput_final_line (r : Results) (pre : List Str)
    (hr : ResultsOk r) (hpre : ∀ l ∈ pre, diagLine l = true) :
    parseBenchmarkOutput (interNl (pre ++ [dumpsResults r])) = some r := by
  have hdh := dumpsResults_head r
  have hds := dumpsResults_snoc r
  have hnn := dumpsResults_no_newline r hr
  have hstrip : pyStrip (interNl (pre ++ [dumpsResults r])) =
      interNl (pre ++ [dumpsResults r]) :=
    pyStrip_interNl_diag_snoc pre (dumpsResults r) hpre _ _ hdh hds
  have hsplit : splitNl (interNl (pre ++ [dumpsResults r])) =
      pre ++ [dumpsResults r] := by
    apply splitNl_interNl _ (by simp)
    intro l hl
    rcases List.mem_append.mp hl with h | h
    · exact (diagLine_chars (hpre l h)).1
    · simp only [List.mem_singleton] at h
      subst h
      exact hnn
  have hrev : (pre ++ [dumpsResults r]).reverse =
      dumpsResults r :: pre.reverse := by simp
  have hsd : pyStrip (dumpsResults r) = dumpsResults r := pyStrip_dumpsResults r
  have hsw : startsWith '{' (dumpsResults r) = true := by rw [hdh]; rfl
  have hld : loadsResults (dumpsResults r) = some r := loadsResults_dumpsResults r hr
  unfold parseBenchmarkOutput
  rw [hstrip, hsplit, hrev]
  simp only [strategy1, hsd, hsw, if_pos, hld]

theorem strategy2_surrounded (r : Results) (pre post : List Str)
    (hr : ResultsOk r) (hpre : ∀ l ∈ pre, diagLine l = true)
    (hpost : ∀ l ∈ post, diagLine l = true) :
    strategy2 (pre ++ dumpsResults r :: post) = some r := by
  have hdh := dumpsResults_head r
  have hds := dumpsResults_snoc r
  have hmem1 : '{' ∈ dumpsResults r := by rw [hdh]; simp
  have hmem2 : '}' ∈ dumpsResults r := by rw [hds]; simp
  have hf := firstIdxWith_append '{' pre (dumpsResults r) post
    (fun l hl => (diagLine_chars (hpre l hl)).2.1) hmem1
  have hl := lastIdxWith_append '}' pre (dumpsResults r) post
    (fun l hl => (diagLine_chars (hpre l hl)).2.2)
    (fun l hl => (diagLine_chars (hpost l hl)).2.2) hmem2
  have hdrop : (pre ++ dumpsResults r :: post).drop pre.length =
      dumpsResults r :: post :=
    List.drop_left _ _
  have hld : loadsResults (dumpsResults r) = some r := loadsResults_dumpsResults r hr
  simp only [strategy2, hf, hl, hdrop, Nat.add_sub_cancel_left, List.take_succ_cons,
    List.take_zero, interNl, hld]

/-! ## The in-sandbox runner (`docker_setup/benchmark.py`)

Each `subprocess.run` invocation is modelled by an oracle value: it either
completed with an exit code and captured streams, expired its timeout
(`subprocess.TimeoutExpired`), or raised some other exception whose
`str(e)` is the given message. -/

/-- Outcome of one `subprocess.run` call. -/
inductive StepOutcome where
  | completed (returncode : Int) (stdout stderr : Str)
  | timedOut
  | raised (msg : Str)

/-- `compile_and_run_cpp` / `compile_and_run_rust` / `compile_and_run_java`:
the three functions have identical control flow — compile, check the exit
code, run under timing, check the exit code — differing only in commands
and compile timeouts.  `elapsed` is the measured wall-clock run interval in
microseconds. -/
def compileAndRunCompiled (comp : StepOutcome) (run : StepOutcome)
    (elapsed : Nat) : LangResult :=
  match comp with
  | .timedOut => timeoutResult
  | .raised m => exnResult m
  | .completed rc _ stderr =>
    if rc ≠ 0 then compileErrorResult stderr
    else
      match run with
      | .timedOut => timeoutResult
      | .raised m => exnResult m
      | .completed rc₂ stdout stderr₂ =>
        if rc₂ ≠ 0 then runtimeErrorResult stderr₂
        else successResult elapsed stdout

/-- `run_python`: no compile stage; run under timing and check the exit
code. -/
def runPython (run : StepOutcome) (elapsed : Nat) : LangResult :=
  match run with
  | .timedOut => timeoutResult
  | .raised m => exnResult m
  | .completed rc stdout stderr =>
    if rc ≠ 0 then runtimeErrorResult stderr
    else successResult elapsed stdout

/-- Compile-stage timeout for C++ (`timeout=30` on the `g++` call). -/
def cppCompileTimeoutS : Nat := 30

/-- Compile-stage timeout for Java (`timeout=30` on the `javac` call). -/
def javaCompileTimeoutS : Nat := 30

/-- Compile-stage timeout for Rust (`timeout=60` on the `rustc` call). -/
def rustCompileTimeoutS : Nat := 60

/-- Run-stage timeout, identical for all four languages (`timeout=60` on
every run call). -/
def runTimeoutS : Nat := 60

/-- The world one `main()` invocation of the runner sees: which of the four
well-known files exist in `/app/code`, and what every potential subprocess
step would do. -/
structure RunnerWorld where
  pyPresent : Bool
  pyRun : StepOutcome
  pyElapsed : Nat
  cppPresent : Bool
  cppCompile : StepOutcome
  cppRun : StepOutcome
  cppElapsed : Nat
  rustPresent : Bool
  rustCompile : StepOutcome
  rustRun : StepOutcome
  rustElapsed : Nat
  javaPresent : Bool
  javaCompile : StepOutcome
  javaRun : StepOutcome
  javaElapsed : Nat

/-- `main()` of `benchmark.py`: for each slot in the fixed order python,
cpp, rust, java, dispatch on file existence; a missing file yields the
literal `{"success": False, "error": "File not found", "execution_time":
None}` dict without touching any subprocess. -/
def runnerMain (w : RunnerWorld) : Results :=
  { python := if w.pyPresent then runPython w.pyRun w.pyElapsed else fileNotFoundResult
    cpp := if w.cppPresent then
        compileAndRunCompiled w.cppCompile w.cppRun w.cppElapsed
      else fileNotFoundResult
    rust := if w.rustPresent then
        compileAndRunCompiled w.rustCompile w.rustRun w.rustElapsed
      else fileNotFoundResult
    java := if w.javaPresent then
        compileAndRunCompiled w.javaCompile w.javaRun w.javaElapsed
      else fileNotFoundResult }

/-! ## Workspace file materialization (`setup_environment.py` lines 144-169)

`run_benchmark` writes `code.py` iff `python_code and python_code.strip()`
is truthy, and each compiled-language file additionally requires the blob
not to start with the `//` sentinel.  A blob is `Option Str`: `none` is
Python `None`. -/

/-- Python truthiness of an optional string (`None` and `""` are falsy). -/
def truthy : Option Str → Bool
  | none => false
  | some s => !s.isEmpty

/-- `if python_code and python_code.strip():` — no sentinel check. -/
def pythonWritten (b : Option Str) : Bool :=
  truthy b && truthy (b.map pyStrip)

/-- `s.startswith("//")`. -/
def startsWithSlashSlash : Str → Bool
  | '/' :: '/' :: _ => true
  | _ => false

/-- `if code and code.strip() and not code.startswith("//"):` for the cpp,
java and rust slots. -/
def compiledWritten (b : Option Str) : Bool :=
  truthy b && truthy (b.map pyStrip) && !(b.map startsWithSlashSlash).getD false

/-- The four source blobs passed to `run_benchmark`. -/
structure Blobs where
  python : Option Str
  cpp : Option Str
  java : Option Str
  rust : Option Str

/-- Composition of the orchestrator's file writing with the runner, via the
workspace file contract: the runner's existence checks see exactly the
files the orchestrator wrote. -/
def runBlobs (b : Blobs) (w : RunnerWorld) : Results :=
  runnerMain { w with
    pyPresent := pythonWritten b.python
    cppPresent := compiledWritten b.cpp
    rustPresent := compiledWritten b.rust
    javaPresent := compiledWritten b.java }

/-! ## The environment provisioner (`setup_environment.py` lines 58-108) -/

/-- Provisioner-relevant state: whether the image exists on the docker
daemon, the manager's `image_built` flag, and how many `build_image` calls
have run (to observe "no second build"). -/
structure ProvisionerState where
  imageExists : Bool
  imageBuilt : Bool
  builds : Nat

/-- Per-call oracle for `ensure_image_exists`: whether `images.get` raises
something other than `ImageNotFound`, and whether a build (if attempted)
succeeds. -/
structure EnsureWorld where
  getRaises : Bool
  buildSucceeds : Bool

/-- `build_image`: on success tags the image and sets `image_built`; on
failure returns `False` leaving the flag unset.  Every call bumps the
build counter. -/
def buildImage (st : ProvisionerState) (ok : Bool) : Bool × ProvisionerState :=
  if ok then
    (true, { st with imageExists := true, imageBuilt := true, builds := st.builds + 1 })
  else
    (false, { st with builds := st.builds + 1 })

/-- `ensure_image_exists`: `images.get` finds the image (sets the flag,
returns `True` with no build), raises `ImageNotFound` (falls through to
`build_image`), or raises some other error (returns `False`). -/
def ensureImageExists (st : ProvisionerState) (w : EnsureWorld) :
    Bool × ProvisionerState :=
  if w.getRaises then (false, st)
  else if st.imageExists then (true, { st with imageBuilt := true })
  else buildImage st w.buildSucceeds

/-! ## The orchestrator (`setup_environment.py` lines 110-272 and 337-350)

`run_benchmark` is modelled over a per-call oracle describing what each
effectful step would do, threading the set of workspace directories on
disk.  Best-effort cleanup steps (`container.remove`, the log retrieval in
the error path, `shutil.rmtree(..., ignore_errors=True)`) sit in their own
`try/except` blocks in the source and cannot change the returned value, so
their failure modes carry no oracle. -/

/-- The value shapes `run_benchmark` can return: the parsed record, the
image-setup-failed dict, the parse-failure dict carrying the raw output
and exit code, the container-execution-error dict, the outer
`except Exception` dict, and the module-level wrapper's dict. -/
inductive BenchOutcome where
  | results (r : Results)
  | setupFailed
  | parseFailed (rawOutput : Str) (exitCode : Int)
  | containerError (msg : Str)
  | outerError (msg : Str)
  | wrapperError (msg : Str)

/-- The `"error"` entry of each returned dict (`none` when the parsed
per-language record is returned, which carries no top-level error key). -/
def errField : BenchOutcome → Option Str
  | .results _ => none
  | .setupFailed => some (str "Failed to build Docker image")
  | .parseFailed _ _ => some (str "Failed to parse benchmark results")
  | .containerError m => some m
  | .outerError m => some m
  | .wrapperError m => some m

/-- Per-call oracle for one `run_benchmark` invocation.  A `some msg` in an
`Err` field means that step raised an exception with `str(e) = msg`. -/
structure RunWorld where
  initErr : Option Str
  imageBuilt : Bool
  ensureOk : Bool
  mkdtempErr : Option Str
  writeErr : Option Str
  containerRunErr : Option Str
  waitLogsErr : Option Str
  exitCode : Int
  output : Str

/-- `DockerBenchmarkManager.run_benchmark`.  `fs` is the set of workspace
directories on disk and `dir` the fresh name `tempfile.mkdtemp` would pick;
the returned list is the state of the disk when the method exits.  An
`Except.error` is an exception propagating out of the method (only
`mkdtemp` can raise outside the `try/finally`). -/
def managerRunBenchmark (fs : List Str) (dir : Str) (w : RunWorld) :
    Except Str BenchOutcome × List Str :=
  if !w.imageBuilt && !w.ensureOk then
    (Except.ok BenchOutcome.setupFailed, fs)
  else
    match w.mkdtempErr with
    | some e => (Except.error e, fs)
    | none =>
      let fs₁ := dir :: fs
      let body : Except Str BenchOutcome :=
        match w.writeErr with
        | some e => Except.ok (BenchOutcome.outerError e)
        | none =>
          match w.containerRunErr with
          | some e => Except.ok (BenchOutcome.outerError e)
          | none =>
            match w.waitLogsErr with
            | some e =>
              Except.ok (BenchOutcome.containerError
                (str "Container execution error: " ++ e))
            | none =>
              match parseBenchmarkOutput w.output with
              | some r => Except.ok (BenchOutcome.results r)
              | none => Except.ok (BenchOutcome.parseFailed w.output w.exitCode)
      (body, fs₁.erase dir)

/-- The module-level `run_benchmark` wrapper: `get_manager()` plus the
method call inside `try/except`, so the caller always receives a dict. -/
def runBenchmarkPublic (fs : List Str) (dir : Str) (w : RunWorld) :
    BenchOutcome × List Str :=
  match w.initErr with
  | some e => (BenchOutcome.wrapperError e, fs)
  | none =>
    let p := managerRunBenchmark fs dir w
    (match p.1 with
     | Except.ok r => r
     | Except.error e => BenchOutcome.wrapperError e,
     p.2)

/-- Some step of the pipeline faulted (or setup failed). -/
def FaultyWorld (w : RunWorld) : Prop :=
  w.initErr ≠ none ∨ (w.imageBuilt = false ∧ w.ensureOk = false) ∨
  w.mkdtempErr ≠ none ∨ w.writeErr ≠ none ∨ w.containerRunErr ≠ none ∨
  w.waitLogsErr ≠ none

/-! ## Field-shape invariants of the runner's results -/

/-- The (corrected) field invariant of an emitted language result: on
success `execution_time` holds a number, `output` is present and `error`
absent; on failure `execution_time` is present holding `null`, `output` is
absent and `error` is a non-empty string. -/
def ResultFieldInvariant (r : LangResult) : Prop :=
  (r.success = true → (∃ t, r.execution_time = some (some t)) ∧ r.error = none ∧
    ∃ s, r.output = some s) ∧
  (r.success = false → r.execution_time = some none ∧ r.output = none ∧
    ∃ e, r.error = some e ∧ e ≠ [])

/-- A subprocess exception (if that is the outcome) has a non-empty
`str(e)` description. -/
def raisedNonempty : StepOutcome → Prop
  | .raised m => m ≠ []
  | _ => True

/-- All exception descriptions in a runner world are non-empty. -/
def WorldExnOk (w : RunnerWorld) : Prop :=
  raisedNonempty w.pyRun ∧ raisedNonempty w.cppCompile ∧ raisedNonempty w.cppRun ∧
  raisedNonempty w.rustCompile ∧ raisedNonempty w.rustRun ∧
  raisedNonempty w.javaCompile ∧ raisedNonempty w.javaRun

theorem inv_timeoutResult : ResultFieldInvariant timeoutResult := by
  constructor
  · intro hs
    simp [timeoutResult] at hs
  · intro _
    exact ⟨rfl, rfl, str "Execution timeout", rfl, by decide⟩

theorem inv_fileNotFoundResult : ResultFieldInvariant fileNotFoundResult := by
  constructor
  · intro hs
    simp [fileNotFoundResult] at hs
  · intro _
    exact ⟨rfl, rfl, str "File not found", rfl, by decide⟩

theorem inv_exnResult (m : Str) (hm : m ≠ []) : ResultFieldInvariant (exnResult m) := by
  constructor
  · intro hs
    simp [exnResult] at hs
  · intro _
    exact ⟨rfl, rfl, m, rfl, hm⟩

theorem inv_compileErrorResult (stderr : Str) :
    ResultFieldInvariant (compileErrorResult stderr) := by
  constructor
  · intro hs
    simp [compileErrorResult] at hs
  · intro _
    refine ⟨rfl, rfl, str "Compilation error: " ++ stderr, rfl, ?_⟩
    intro h
    rw [List.append_eq_nil] at h
    exact absurd h.1 (by decide)

theorem inv_runtimeErrorResult (stderr : Str) :
    ResultFieldInvariant (runtimeErrorResult stderr) := by
  constructor
  · intro hs
    simp [runtimeErrorResult] at hs
  · intro _
    refine ⟨rfl, rfl, str "Runtime error: " ++ stderr, rfl, ?_⟩
    intro h
    rw [List.append_eq_nil] at h
    exact absurd h.1 (by decide)

theorem inv_successResult (t : Nat) (stdout : Str) :
    ResultFieldInvariant (successResult t stdout) := by
  constructor
  · intro _
    exact ⟨⟨t, rfl⟩, rfl, pyStrip stdout, rfl⟩
  · intro hs
    simp [successResult] at hs

theorem inv_compileAndRunCompiled (comp run : StepOutcome) (e : Nat)
    (h1 : raisedNonempty comp) (h2 : raisedNonempty run) :
    ResultFieldInvariant (compileAndRunCompiled comp run e) := by
  cases comp with
  | timedOut => exact inv_timeoutResult
  | raised m => exact inv_exnResult m h1
  | completed rc so se =>
    simp only [compileAndRunCompiled]
    by_cases hrc : rc ≠ 0
    · rw [if_pos hrc]
      exact inv_compileErrorResult se
    · rw [if_neg hrc]
      cases run with
      | timedOut => exact inv_timeoutResult
      | raised m => exact inv_exnResult m h2
      | completed rc₂ so₂ se₂ =>
        dsimp only
        by_cases hrc₂ : rc₂ ≠ 0
        · rw [if_pos hrc₂]
          exact inv_runtimeErrorResult se₂
        · rw [if_neg hrc₂]
          exact inv_successResult e so₂

theorem inv_runPython (run : StepOutcome) (e : Nat) (h : raisedNonempty run) :
    ResultFieldInvariant (runPython run e) := by
  cases run with
  | timedOut => exact inv_timeoutResult
  | raised m => exact inv_exnResult m h
  | completed rc so se =>
    simp only [runPython]
    by_cases hrc : rc ≠ 0
    · rw [if_pos hrc]
      exact inv_runtimeErrorResult se
    · rw [if_neg hrc]
      exact inv_successResult e so

/-- A runner world with no file present; the step outcomes are arbitrary
placeholders that the runner never consults. -/
def allAbsentWorld : RunnerWorld :=
  { pyPresent := false, pyRun := .timedOut, pyElapsed := 0,
    cppPresent := false, cppCompile := .timedOut, cppRun := .timedOut, cppElapsed := 0,
    rustPresent := false, rustCompile := .timedOut, rustRun := .timedOut, rustElapsed := 0,
    javaPresent := false, javaCompile := .timedOut, javaRun := .timedOut, javaElapsed := 0 }

/-! ## Slot presence helper lemmas -/

theorem pythonWritten_iff (b : Option Str) :
    pythonWritten b = true ↔ ∃ s, b = some s ∧ s ≠ [] ∧ pyStrip s ≠ [] := by
  cases b with
  | none => simp [pythonWritten, truthy]
  | some s =>
    simp [pythonWritten, truthy, and_assoc]

theorem compiledWritten_iff (b : Option Str) :
    compiledWritten b = true ↔
      ∃ s, b = some s ∧ s ≠ [] ∧ pyStrip s ≠ [] ∧ startsWithSlashSlash s = false := by
  cases b with
  | none => simp [compiledWritten, truthy]
  | some s =>
    simp [compiledWritten, truthy, and_assoc]

theorem pythonWritten_false_of_blank (b : Option Str)
    (h : b = none ∨ ∃ s, b = some s ∧ pyStrip s = []) : pythonWritten b = false := by
  rcases h with h | ⟨s, hb, hs⟩
  · subst h
    rfl
  · subst hb
    simp [pythonWritten, truthy, hs]

theorem compiledWritten_false_of_blank (b : Option Str)
    (h : b = none ∨ ∃ s, b = some s ∧ pyStrip s = []) : compiledWritten b = false := by
  rcases h with h | ⟨s, hb, hs⟩
  · subst h
    rfl
  · subst hb
    simp [compiledWritten, truthy, hs]

theorem runBlobs_python_fnf (bl : Blobs) (w : RunnerWorld)
    (h : pythonWritten bl.python = false) :
    (runBlobs bl w).python = fileNotFoundResult := by
  simp [runBlobs, runnerMain, h]

theorem runBlobs_cpp_fnf (bl : Blobs) (w : RunnerWorld)
    (h : compiledWritten bl.cpp = false) :
    (runBlobs bl w).cpp = fileNotFoundResult := by
  simp [runBlobs, runnerMain, h]

theorem runBlobs_rust_fnf (bl : Blobs) (w : RunnerWorld)
    (h : compiledWritten bl.rust = false) :
    (runBlobs bl w).rust = fileNotFoundResult := by
  simp [runBlobs, runnerMain, h]

theorem runBlobs_java_fnf (bl : Blobs) (w : RunnerWorld)
    (h : compiledWritten bl.java = false) :
    (runBlobs bl w).java = fileNotFoundResult := by
  simp [runBlobs, runnerMain, h]

/-! ## Claims -/

/-- C2 (spec-side shape): the missing-file result as the claim words it —
`{success:false, error:"File not found"}` with no `execution_time` key. -/
def specFileNotFound : LangResult :=
  { success := false, execution_time := none, output := none,
    error := some (str "File not found") }

/-- C1 (counterexample): the claimed "`execution_time` is present iff
`success = true`" fails on the code: the result the runner emits for an
absent Python file has `success = false` yet its dict still carries the
`execution_time` key (holding `null`, i.e. Python `None`). -/
theorem c1_counterexample :
    (runnerMain allAbsentWorld).python.success = false ∧
    (runnerMain allAbsentWorld).python.execution_time ≠ none ∧
    (runnerMain allAbsentWorld).python.execution_time = some none := by
  decide

/-- C1 (amended): for every per-language result emitted by the in-sandbox
runner, `execution_time` holds a number iff `success = true` and is the
JSON `null` (key present) on every failure; `error` is present iff
`success = false` and — provided the catch-all exception description is
non-empty — is a non-empty string; `output` is present iff `success =
true`. -/
theorem c1_field_invariants (w : RunnerWorld) (h : WorldExnOk w) :
    ResultFieldInvariant (runnerMain w).python ∧
    ResultFieldInvariant (runnerMain w).cpp ∧
    ResultFieldInvariant (runnerMain w).rust ∧
    ResultFieldInvariant (runnerMain w).java := by
  obtain ⟨h1, h2, h3, h4, h5, h6, h7⟩ := h
  refine ⟨?_, ?_, ?_, ?_⟩ <;> simp only [runnerMain]
  · by_cases hp : w.pyPresent = true
    · rw [if_pos hp]
      exact inv_runPython _ _ h1
    · rw [if_neg hp]
      exact inv_fileNotFoundResult
  · by_cases hp : w.cppPresent = true
    · rw [if_pos hp]
      exact inv_compileAndRunCompiled _ _ _ h2 h3
    · rw [if_neg hp]
      exact inv_fileNotFoundResult
  · by_cases hp : w.rustPresent = true
    · rw [if_pos hp]
      exact inv_compileAndRunCompiled _ _ _ h4 h5
    · rw [if_neg hp]
      exact inv_fileNotFoundResult
  · by_cases hp : w.javaPresent = true
    · rw [if_pos hp]
      exact inv_compileAndRunCompiled _ _ _ h6 h7
    · rw [if_neg hp]
      exact inv_fileNotFoundResult

/-- C1 (witness): the amended invariant instantiated at the all-absent
world. -/
theorem c1_field_invariants_witness :
    ResultFieldInvariant (runnerMain allAbsentWorld).python ∧
    ResultFieldInvariant (runnerMain allAbsentWorld).cpp ∧
    ResultFieldInvariant (runnerMain allAbsentWorld).rust ∧
    ResultFieldInvariant (runnerMain allAbsentWorld).java :=
  c1_field_invariants allAbsentWorld
    ⟨True.intro, True.intro, True.intro, True.intro, True.intro, True.intro, True.intro⟩

/-- C2 (counterexample): the claim's "exactly `{success:false,
error:\"File not found\"}`" fails: the dict the runner emits for a missing
cpp file additionally carries `execution_time: null`, so it is not the
two-key object the claim describes. -/
theorem c2_counterexample :
    (runnerMain allAbsentWorld).cpp ≠ specFileNotFound ∧
    (runnerMain allAbsentWorld).cpp.execution_time = some none := by
  decide

/-- C2 (amended): for each of the four language slots, if the source file
is absent when the runner starts, the slot's result is exactly
`{success:false, error:"File not found", execution_time:null}`, the same
constant for every world — in particular independent of every compile/run
step outcome, so no compile or run is consulted. -/
theorem c2_missing_file_result (w : RunnerWorld) :
    (w.pyPresent = false → (runnerMain w).python = fileNotFoundResult) ∧
    (w.cppPresent = false → (runnerMain w).cpp = fileNotFoundResult) ∧
    (w.rustPresent = false → (runnerMain w).rust = fileNotFoundResult) ∧
    (w.javaPresent = false → (runnerMain w).java = fileNotFoundResult) := by
  refine ⟨?_, ?_, ?_, ?_⟩ <;> intro hp <;> simp [runnerMain, hp]

/-- C2 (witness): the amended statement instantiated at the all-absent
world, each absence hypothesis discharged by `rfl`. -/
theorem c2_missing_file_result_witness :
    (runnerMain allAbsentWorld).python = fileNotFoundResult ∧
    (runnerMain allAbsentWorld).cpp = fileNotFoundResult ∧
    (runnerMain allAbsentWorld).rust = fileNotFoundResult ∧
    (runnerMain allAbsentWorld).java = fileNotFoundResult :=
  ⟨(c2_missing_file_result allAbsentWorld).1 rfl,
   (c2_missing_file_result allAbsentWorld).2.1 rfl,
   (c2_missing_file_result allAbsentWorld).2.2.1 rfl,
   (c2_missing_file_result allAbsentWorld).2.2.2 rfl⟩

/-- C3: whatever the per-call oracle does — docker connection failure,
image-setup failure, `mkdtemp`, file writing, container launch, or
wait/logs raising — the public run-benchmark wrapper returns a
result-shaped value whose `error` entry is set; by construction of the
model (a total function into `BenchOutcome`) no exception escapes to the
caller. -/
theorem c3_no_unhandled_fault (fs : List Str) (dir : Str) (w : RunWorld)
    (h : FaultyWorld w) :
    (errField (runBenchmarkPublic fs dir w).1).isSome = true := by
  rcases hinit : w.initErr with _ | e
  · by_cases hsetup : (!w.imageBuilt && !w.ensureOk) = true
    · simp [runBenchmarkPublic, managerRunBenchmark, hinit, hsetup, errField]
    · rcases hmk : w.mkdtempErr with _ | e₁
      · rcases hwr : w.writeErr with _ | e₂
        · rcases hcr : w.containerRunErr with _ | e₃
          · rcases hwl : w.waitLogsErr with _ | e₄
            · exfalso
              rcases h with hx | hx | hx | hx | hx | hx
              · exact hx hinit
              · apply hsetup
                rw [hx.1, hx.2]
                rfl
              · exact hx hmk
              · exact hx hwr
              · exact hx hcr
              · exact hx hwl
            · simp [runBenchmarkPublic, managerRunBenchmark, hinit, hsetup, hmk,
                hwr, hcr, hwl, errField]
          · simp [runBenchmarkPublic, managerRunBenchmark, hinit, hsetup, hmk,
              hwr, hcr, errField]
        · simp [runBenchmarkPublic, managerRunBenchmark, hinit, hsetup, hmk,
            hwr, errField]
      · simp [runBenchmarkPublic, managerRunBenchmark, hinit, hsetup, hmk, errField]
  · simp [runBenchmarkPublic, hinit, errField]

/-- C3 (example world): the docker connection raising in the manager's
constructor. -/
def faultyWorldExample : RunWorld :=
  { initErr := some (str "Docker connection failed"), imageBuilt := true,
    ensureOk := true, mkdtempErr := none, writeErr := none,
    containerRunErr := none, waitLogsErr := none, exitCode := 0, output := [] }

/-- C3 (witness): the fault hypothesis discharged at a concrete faulty
world. -/
theorem c3_no_unhandled_fault_witness :
    FaultyWorld faultyWorldExample ∧
    (errField (runBenchmarkPublic [] (str "tmp") faultyWorldExample).1).isSome = true :=
  ⟨Or.inl (by decide),
   c3_no_unhandled_fault [] (str "tmp") faultyWorldExample (Or.inl (by decide))⟩

/-- C4: round trip of the result channel.  For every well-formed benchmark
record serialized as a single JSON line: (a) when that line is the final
line of the captured output (any diagnostic lines before it), the
result-channel parser recovers the identical record — no field loss, and
the execution-time number recovered exactly at microsecond resolution;
(b) when the same serialized line is instead surrounded by unrelated
diagnostic lines before and after it, the block-scan fallback on its own
recovers that same identical record. -/
theorem c4_round_trip (r : Results) (pre post : List Str) (hr : ResultsOk r)
    (hpre : ∀ l ∈ pre, diagLine l = true) (hpost : ∀ l ∈ post, diagLine l = true) :
    parseBenchmarkOutput (interNl (pre ++ [dumpsResults r])) = some r ∧
    strategy2 (pre ++ dumpsResults r :: post) = some r :=
  ⟨parseOutput_final_line r pre hr hpre, strategy2_surrounded r pre post hr hpre hpost⟩

/-- C4 (example record): one success and one failure of each flavour. -/
def exampleResults : Results :=
  { python := { success := true, execution_time := some (some 1500000),
                output := some (str "hello"), error := none }
    cpp := { success := false, execution_time := some none, output := none,
             error := some (str "Compilation error: boom") }
    rust := { success := false, execution_time := some none, output := none,
              error := some (str "Execution timeout") }
    java := { success := true, execution_time := some (some 250000),
              output := some (str "ok"), error := none } }

/-- C4 (witness): the round trip at a concrete record with one diagnostic
line before and one after. -/
theorem c4_round_trip_witness :
    ResultsOk exampleResults ∧
    parseBenchmarkOutput
      (interNl ([str "[Docker] running"] ++ [dumpsResults exampleResults])) =
        some exampleResults ∧
    strategy2 ([str "[Docker] running"] ++ dumpsResults exampleResults ::
      [str "done."]) = some exampleResults := by
  have hok : ResultsOk exampleResults := by
    refine ⟨Or.inl ⟨rfl, ⟨1500000, rfl⟩, ⟨str "hello", rfl, ?_⟩, rfl⟩,
      Or.inr ⟨rfl, rfl, rfl, str "Compilation error: boom", rfl, ?_⟩,
      Or.inr ⟨rfl, rfl, rfl, str "Execution timeout", rfl, ?_⟩,
      Or.inl ⟨rfl, ⟨250000, rfl⟩, ⟨str "ok", rfl, ?_⟩, rfl⟩⟩ <;>
      · unfold StrOk
        decide
  have hpre : ∀ l ∈ [str "[Docker] running"], diagLine l = true := by
    intro l hl
    simp only [List.mem_singleton] at hl
    subst hl
    decide
  have hpost : ∀ l ∈ [str "done."], diagLine l = true := by
    intro l hl
    simp only [List.mem_singleton] at hl
    subst hl
    decide
  exact ⟨hok, (c4_round_trip exampleResults _ _ hok hpre hpost).1,
    (c4_round_trip exampleResults _ _ hok hpre hpost).2⟩

/-- C5 (spec-side rule): the claim's presence rule read literally and
applied identically to all four slots — the blob is non-empty and does not
start with the `//` sentinel. -/
def specSlotPresent : Option Str → Bool
  | none => false
  | some s => !s.isEmpty && !startsWithSlashSlash s

/-- C5 (counterexample): the interpreted (Python) slot does not apply the
`//` sentinel: a Python blob `"//x"` is written (slot treated present)
although the claimed rule makes it absent. -/
theorem c5_counterexample :
    specSlotPresent (some (str "//x")) = false ∧
    pythonWritten (some (str "//x")) = true := by
  decide

/-- C5 (amended): a compiled-language slot (cpp, rust, java) is written iff
its blob is a non-empty string whose strip is non-empty and that does not
start with `//`; the Python slot is written iff its blob is a non-empty
string whose strip is non-empty, with no sentinel check.  A slot that is
not written reaches the runner as an absent file and yields the
deterministic File-not-found result rather than an error. -/
theorem c5_slot_presence (bl : Blobs) (w : RunnerWorld) :
    (pythonWritten bl.python = true ↔
      ∃ s, bl.python = some s ∧ s ≠ [] ∧ pyStrip s ≠ []) ∧
    (compiledWritten bl.cpp = true ↔
      ∃ s, bl.cpp = some s ∧ s ≠ [] ∧ pyStrip s ≠ [] ∧
        startsWithSlashSlash s = false) ∧
    (compiledWritten bl.rust = true ↔
      ∃ s, bl.rust = some s ∧ s ≠ [] ∧ pyStrip s ≠ [] ∧
        startsWithSlashSlash s = false) ∧
    (compiledWritten bl.java = true ↔
      ∃ s, bl.java = some s ∧ s ≠ [] ∧ pyStrip s ≠ [] ∧
        startsWithSlashSlash s = false) ∧
    (pythonWritten bl.python = false → (runBlobs bl w).python = fileNotFoundResult) ∧
    (compiledWritten bl.cpp = false → (runBlobs bl w).cpp = fileNotFoundResult) ∧
    (compiledWritten bl.rust = false → (runBlobs bl w).rust = fileNotFoundResult) ∧
    (compiledWritten bl.java = false → (runBlobs bl w).java = fileNotFoundResult) :=
  ⟨pythonWritten_iff bl.python, compiledWritten_iff bl.cpp,
   compiledWritten_iff bl.rust, compiledWritten_iff bl.java,
   runBlobs_python_fnf bl w, runBlobs_cpp_fnf bl w,
   runBlobs_rust_fnf bl w, runBlobs_java_fnf bl w⟩

/-- C5 (example blobs): an absent Python blob, a sentinel cpp blob, a
whitespace-only java blob and an absent rust blob. -/
def exampleBlobs : Blobs :=
  { python := none, cpp := some (str "// error"), java := some (str " "),
    rust := none }

/-- C5 (witness): the not-written implications discharged at the example
blobs. -/
theorem c5_slot_presence_witness :
    (runBlobs exampleBlobs allAbsentWorld).python = fileNotFoundResult ∧
    (runBlobs exampleBlobs allAbsentWorld).cpp = fileNotFoundResult ∧
    (runBlobs exampleBlobs allAbsentWorld).rust = fileNotFoundResult ∧
    (runBlobs exampleBlobs allAbsentWorld).java = fileNotFoundResult :=
  ⟨(c5_slot_presence exampleBlobs allAbsentWorld).2.2.2.2.1 (by decide),
   (c5_slot_presence exampleBlobs allAbsentWorld).2.2.2.2.2.1 (by decide),
   (c5_slot_presence exampleBlobs allAbsentWorld).2.2.2.2.2.2.1 (by decide),
   (c5_slot_presence exampleBlobs allAbsentWorld).2.2.2.2.2.2.2 (by decide)⟩

/-- C6: when no step faults but both parsing strategies fail on the
captured output, the public operation returns exactly the parse-failure
result carrying the raw captured output and the container exit code, with
`error` set to `"Failed to parse benchmark results"`. -/
theorem c6_parse_failure_result (fs : List Str) (dir : Str) (w : RunWorld)
    (h1 : w.initErr = none) (h2 : w.imageBuilt = true ∨ w.ensureOk = true)
    (h3 : w.mkdtempErr = none) (h4 : w.writeErr = none)
    (h5 : w.containerRunErr = none) (h6 : w.waitLogsErr = none)
    (h7 : parseBenchmarkOutput w.output = none) :
    (runBenchmarkPublic fs dir w).1 = BenchOutcome.parseFailed w.output w.exitCode ∧
    errField (runBenchmarkPublic fs dir w).1 =
      some (str "Failed to parse benchmark results") := by
  have hsetup : (!w.imageBuilt && !w.ensureOk) = false := by
    rcases h2 with h | h <;> simp [h]
  constructor <;>
    simp [runBenchmarkPublic, managerRunBenchmark, h1, hsetup, h3, h4, h5, h6,
      h7, errField]

/-- C6 (example world): a clean run whose captured output contains no JSON
at all. -/
def parseFailWorld : RunWorld :=
  { initErr := none, imageBuilt := true, ensureOk := true, mkdtempErr := none,
    writeErr := none, containerRunErr := none, waitLogsErr := none,
    exitCode := -1, output := str "no json here" }

/-- C6 (witness): both strategies fail on `"no json here"` and the
parse-failure result carries that output and the exit code. -/
theorem c6_parse_failure_result_witness :
    parseBenchmarkOutput parseFailWorld.output = none ∧
    (runBenchmarkPublic [] (str "tmp") parseFailWorld).1 =
      BenchOutcome.parseFailed (str "no json here") (-1) :=
  ⟨by decide,
   (c6_parse_failure_result [] (str "tmp") parseFailWorld rfl (Or.inl rfl) rfl rfl
     rfl rfl (by decide)).1⟩

/-- C7: provisioning is idempotent.  If a call to `ensure_image_exists`
succeeded, an immediately following call performs no build (the build
counter is unchanged), and — whenever its image lookup does not itself
raise — returns success again by detecting the existing image. -/
theorem c7_ensure_idempotent (st : ProvisionerState) (w₁ w₂ : EnsureWorld)
    (h : (ensureImageExists st w₁).1 = true) :
    (ensureImageExists (ensureImageExists st w₁).2 w₂).2.builds =
      (ensureImageExists st w₁).2.builds ∧
    (w₂.getRaises = false →
      (ensureImageExists (ensureImageExists st w₁).2 w₂).1 = true) := by
  have hkey : (ensureImageExists st w₁).2.imageExists = true := by
    by_cases hg : w₁.getRaises = true
    · exfalso
      simp [ensureImageExists, hg] at h
    · by_cases he : st.imageExists = true
      · simp [ensureImageExists, hg, he]
      · by_cases hb : w₁.buildSucceeds = true
        · simp [ensureImageExists, buildImage, hg, he, hb]
        · exfalso
          simp [ensureImageExists, buildImage, hg, he, hb] at h
  generalize (ensureImageExists st w₁).2 = st₁ at hkey ⊢
  constructor
  · by_cases hg₂ : w₂.getRaises = true
    · simp [ensureImageExists, hg₂]
    · simp [ensureImageExists, hg₂, hkey]
  · intro hg₂
    simp [ensureImageExists, hg₂, hkey]

/-- C7 (witness): from a fresh state (no image), a first successful call
builds once; the second call detects the image, rebuilds nothing and
succeeds. -/
theorem c7_ensure_idempotent_witness :
    (ensureImageExists ⟨false, false, 0⟩ ⟨false, true⟩).1 = true ∧
    (ensureImageExists (ensureImageExists ⟨false, false, 0⟩ ⟨false, true⟩).2
        ⟨false, true⟩).2.builds =
      (ensureImageExists ⟨false, false, 0⟩ ⟨false, true⟩).2.builds ∧
    (ensureImageExists (ensureImageExists ⟨false, false, 0⟩ ⟨false, true⟩).2
        ⟨false, true⟩).1 = true :=
  ⟨by decide,
   (c7_ensure_idempotent ⟨false, false, 0⟩ ⟨false, true⟩ ⟨false, true⟩ (by decide)).1,
   (c7_ensure_idempotent ⟨false, false, 0⟩ ⟨false, true⟩ ⟨false, true⟩ (by decide)).2 rfl⟩

/-- C8 (counterexample): the claim requires every compile-stage timeout to
be strictly shorter than the run-stage timeout, but Rust's compile timeout
equals the 60-second run timeout. -/
theorem c8_counterexample :
    rustCompileTimeoutS = 60 ∧ runTimeoutS = 60 ∧
    ¬ rustCompileTimeoutS < runTimeoutS := by
  decide

/-- C8 (amended): the compile-stage timeouts are 30 s for C++ and Java and
60 s for Rust (the historically slower compiler), each at most — strictly
shorter for two of the three — the 60-second run-stage timeout; a timeout
at either the compile stage or the run stage yields the result
`{success:false, error:"Execution timeout"}`. -/
theorem c8_timeouts :
    cppCompileTimeoutS = 30 ∧ javaCompileTimeoutS = 30 ∧
    rustCompileTimeoutS = 60 ∧ runTimeoutS = 60 ∧
    cppCompileTimeoutS < runTimeoutS ∧ javaCompileTimeoutS < runTimeoutS ∧
    rustCompileTimeoutS ≤ runTimeoutS ∧
    timeoutResult.success = false ∧
    timeoutResult.error = some (str "Execution timeout") ∧
    (∀ (run : StepOutcome) (e : Nat),
      compileAndRunCompiled StepOutcome.timedOut run e = timeoutResult) ∧
    (∀ (so se : Str) (e : Nat),
      compileAndRunCompiled (StepOutcome.completed 0 so se) StepOutcome.timedOut e =
        timeoutResult) ∧
    (∀ e : Nat, runPython StepOutcome.timedOut e = timeoutResult) := by
  refine ⟨rfl, rfl, rfl, rfl, by decide, by decide, by decide, rfl, rfl, ?_, ?_, ?_⟩
  · intro run e
    rfl
  · intro so se e
    simp [compileAndRunCompiled]
  · intro e
    rfl

/-- C9: the ephemeral workspace directory created by a run-benchmark call
is removed on every exit path — image-setup failure (never created),
`mkdtemp` failure (never created), any body fault, parse failure or
success (the `finally` removes it) — so the set of workspace directories
on disk after the public call equals the set before it. -/
theorem c9_workspace_removed (fs : List Str) (dir : Str) (w : RunWorld) :
    (runBenchmarkPublic fs dir w).2 = fs := by
  rcases hinit : w.initErr with _ | e
  · have hmgr : (managerRunBenchmark fs dir w).2 = fs := by
      unfold managerRunBenchmark
      by_cases hsetup : (!w.imageBuilt && !w.ensureOk) = true
      · simp [hsetup]
      · rcases hmk : w.mkdtempErr with _ | e₁
        · simp [hsetup, hmk, List.erase_cons_head]
        · simp [hsetup, hmk]
    simp [runBenchmarkPublic, hinit, hmgr]
  · simp [runBenchmarkPublic, hinit]

/-- C10: a source blob that is `None` or whitespace-only is treated at the
public interface exactly like an absent slot: no file is written for it,
and the runner's result for that slot is the File-not-found failure. -/
theorem c10_blank_blob_file_not_found (bl : Blobs) (w : RunnerWorld) :
    ((bl.python = none ∨ ∃ s, bl.python = some s ∧ pyStrip s = []) →
      pythonWritten bl.python = false ∧
      (runBlobs bl w).python = fileNotFoundResult) ∧
    ((bl.cpp = none ∨ ∃ s, bl.cpp = some s ∧ pyStrip s = []) →
      compiledWritten bl.cpp = false ∧
      (runBlobs bl w).cpp = fileNotFoundResult) ∧
    ((bl.rust = none ∨ ∃ s, bl.rust = some s ∧ pyStrip s = []) →
      compiledWritten bl.rust = false ∧
      (runBlobs bl w).rust = fileNotFoundResult) ∧
    ((bl.java = none ∨ ∃ s, bl.java = some s ∧ pyStrip s = []) →
      compiledWritten bl.java = false ∧
      (runBlobs bl w).java = fileNotFoundResult) := by
  refine ⟨fun h => ?_, fun h => ?_, fun h => ?_, fun h => ?_⟩
  · have hf := pythonWritten_false_of_blank bl.python h
    exact ⟨hf, runBlobs_python_fnf bl w hf⟩
  · have hf := compiledWritten_false_of_blank bl.cpp h
    exact ⟨hf, runBlobs_cpp_fnf bl w hf⟩
  · have hf := compiledWritten_false_of_blank bl.rust h
    exact ⟨hf, runBlobs_rust_fnf bl w hf⟩
  · have hf := compiledWritten_false_of_blank bl.java h
    exact ⟨hf, runBlobs_java_fnf bl w hf⟩

/-- C10 (example blobs): a `None` python blob, a whitespace-only cpp blob,
an empty java blob, a `None` rust blob. -/
def blankBlobs : Blobs :=
  { python := none, cpp := some (str "  \t "), java := some [], rust := none }

/-- C10 (witness): the blank-blob hypotheses discharged at the example
blobs. -/
theorem c10_blank_blob_file_not_found_witness :
    (pythonWritten blankBlobs.python = false ∧
      (runBlobs blankBlobs allAbsentWorld).python = fileNotFoundResult) ∧
    (compiledWritten blankBlobs.cpp = false ∧
      (runBlobs blankBlobs allAbsentWorld).cpp = fileNotFoundResult) ∧
    (compiledWritten blankBlobs.rust = false ∧
      (runBlobs blankBlobs allAbsentWorld).rust = fileNotFoundResult) ∧
    (compiledWritten blankBlobs.java = false ∧
      (runBlobs blankBlobs allAbsentWorld).java = fileNotFoundResult) :=
  ⟨(c10_blank_blob_file_not_found blankBlobs allAbsentWorld).1 (Or.inl rfl),
   (c10_blank_blob_file_not_found blankBlobs allAbsentWorld).2.1
     (Or.inr ⟨str "  \t ", rfl, by decide⟩),
   (c10_blank_blob_file_not_found blankBlobs allAbsentWorld).2.2.1 (Or.inl rfl),
   (c10_blank_blob_file_not_found blankBlobs allAbsentWorld).2.2.2
     (Or.inr ⟨[], rfl, rfl⟩)⟩
